import Mathlib

/-!
Formal model of the audio-fingerprinting pipeline of the UploadAudioApi
repository (`fingerprint_logic.py`, `main.py`, `tasks.py`).

Numbers that the Python code manipulates as floats (times in seconds,
frequencies in Hz, decibel magnitudes) are modelled as exact rationals;
the comparisons and arithmetic of the pairing pass are then exact.  The
Python built-in `hash` applied to a tuple of three floats is modelled by
CPython's documented numeric-hash algorithm (hash of a rational n/d is
n * pow(d, P - 2, P) mod P for the Mersenne prime P fixed by the build's
word size, followed by the xxHash-style tuple combiner), parameterised by
the interpreter word size, since the modulus and the tuple constants
differ between 64-bit and 32-bit CPython builds.
-/

/-- Interpreter word size of the CPython build running the pipeline. -/
inductive PyWord
  | w64
  | w32
  deriving DecidableEq

/-- Bit width of the numeric-hash modulus: `sys.hash_info.modulus` is
2^61 - 1 on 64-bit builds and 2^31 - 1 on 32-bit builds. -/
def hashBits : PyWord → ℕ
  | .w64 => 61
  | .w32 => 31

/-- The numeric-hash modulus `sys.hash_info.modulus` (a Mersenne prime). -/
def hashModulus (w : PyWord) : ℕ := 2 ^ hashBits w - 1

/-- Width of `Py_uhash_t`, the unsigned type of the tuple-hash accumulator. -/
def uhashBits : PyWord → ℕ
  | .w64 => 64
  | .w32 => 32

/-- CPython `_PyHASH_XXPRIME_1` (tupleobject.c), per build word size. -/
def xxPrime1 : PyWord → ℕ
  | .w64 => 11400714785074694791
  | .w32 => 2654435761

/-- CPython `_PyHASH_XXPRIME_2` (tupleobject.c), per build word size. -/
def xxPrime2 : PyWord → ℕ
  | .w64 => 14029467366897019727
  | .w32 => 2246822519

/-- CPython `_PyHASH_XXPRIME_5` (tupleobject.c), per build word size. -/
def xxPrime5 : PyWord → ℕ
  | .w64 => 2870177450012600261
  | .w32 => 374761393

/-- Rotation amount of `_PyHASH_XXROTATE`: 31 bits on 64-bit builds,
13 bits on 32-bit builds. -/
def xxRotAmount : PyWord → ℕ
  | .w64 => 31
  | .w32 => 13

/-- Fuel-driven fast modular exponentiation (binary method); the fuel is an
upper bound on the bit length of the exponent, so `64` suffices for every
exponent below `2 ^ 64`.  Structural recursion on the fuel keeps the
definition kernel-reducible. -/
def powModF : ℕ → ℕ → ℕ → ℕ → ℕ
  | 0, _, _, m => 1 % m
  | fuel + 1, b, e, m =>
    if e = 0 then 1 % m
    else
      let r := powModF fuel (b * b % m) (e / 2) m
      if e % 2 = 1 then b * r % m else r

/-- `powMod b e m = b ^ e % m`, computed by the binary method. -/
def powMod (b e m : ℕ) : ℕ := powModF 64 b e m

/-- CPython's hash of a non-negative rational value, as documented for the
numeric tower and implemented by `_Py_HashDouble`: for `n / d` in lowest
terms the hash is `|n| * inverse(d) (mod P)` with the sign of `n` applied
afterwards, and a result of `-1` is replaced by `-2`.  The inverse is
`pow(d, P - 2, P)` since `P` is prime.  The hash of a float does not
depend on the per-process hash seed (`PYTHONHASHSEED` randomises only
`str`/`bytes` hashing). -/
def pyHashQ (w : PyWord) (q : ℚ) : ℤ :=
  let P := hashModulus w
  let h : ℕ := q.num.natAbs % P * powMod (q.den % P) (P - 2) P % P
  let s : ℤ := if q.num < 0 then -(h : ℤ) else (h : ℤ)
  if s = -1 then -2 else s

/-- C cast of a signed `Py_hash_t` to the unsigned `Py_uhash_t`. -/
def toUnsigned (w : PyWord) (z : ℤ) : ℕ := (z % ((2 : ℤ) ^ uhashBits w)).toNat

/-- Left rotation of a `Py_uhash_t` value by the build's xxHash rotation. -/
def rotL (w : PyWord) (x : ℕ) : ℕ :=
  let bits := uhashBits w
  let k := xxRotAmount w
  x % 2 ^ (bits - k) * 2 ^ k + x / 2 ^ (bits - k)

/-- CPython's tuple hash (tupleobject.c, the xxHash-style combiner used
since Python 3.8), over the already-computed hashes of the items.  All
arithmetic is modulo `2 ^ uhashBits`; the final accumulator is cast back
to the signed `Py_hash_t`, with the reserved value `-1` replaced by
`1546275796`. -/
def pyHashTuple (w : PyWord) (hs : List ℤ) : ℤ :=
  let M := 2 ^ uhashBits w
  let acc := hs.foldl
    (fun acc h =>
      let lane := toUnsigned w h
      let acc1 := (acc + lane * xxPrime2 w) % M
      let acc2 := rotL w acc1
      acc2 * xxPrime1 w % M)
    (xxPrime5 w)
  let acc3 := (acc + Nat.xor hs.length (Nat.xor (xxPrime5 w) 3527539)) % M
  let acc4 := if acc3 = M - 1 then 1546275796 else acc3
  if acc4 < M / 2 then (acc4 : ℤ) else (acc4 : ℤ) - (M : ℤ)

/-- The hash the source computes at `fingerprint_logic.py:90`:
`hash((anchor_freq, target_freq, time_delta))`, i.e. the tuple hash of the
three numeric hashes, on a build of word size `w`. -/
def pyHashFloat3 (w : PyWord) (a b c : ℚ) : ℤ :=
  pyHashTuple w [pyHashQ w a, pyHashQ w b, pyHashQ w c]

/-- A CPython process: its build word size plus the per-process hash seed
(`PYTHONHASHSEED`).  The seed is carried explicitly so that determinism
across process restarts can be stated; CPython consults it only when
hashing `str`/`bytes`, never for numeric values. -/
structure PyProcess where
  word : PyWord
  hashSeed : ℕ

/-- The hash function `fingerprint_song` uses, as evaluated inside one
particular CPython process.  Numeric hashing ignores the process seed. -/
def processHash3 (p : PyProcess) (a b c : ℚ) : ℤ := pyHashFloat3 p.word a b c

/-! ### Computable rational arithmetic

The `Rat` operations `+`, `-`, `*`, `/` of the ambient library are marked
irreducible, which blocks proof-by-evaluation on concrete inputs.  The
model therefore computes with the following `mkRat`-based operations;
they are proved equal to the standard operations (`qAdd_eq` and friends
below), so every theorem can be read through the ordinary arithmetic. -/

/-- Rational addition, computably: `a/b + c/d = (ad + cb) / bd`. -/
def qAdd (a b : ℚ) : ℚ :=
  mkRat (a.num * (b.den : ℤ) + b.num * (a.den : ℤ)) (a.den * b.den)

/-- Rational subtraction, computably. -/
def qSub (a b : ℚ) : ℚ :=
  mkRat (a.num * (b.den : ℤ) - b.num * (a.den : ℤ)) (a.den * b.den)

/-- Rational multiplication, computably. -/
def qMul (a b : ℚ) : ℚ := mkRat (a.num * b.num) (a.den * b.den)

/-- Rational division, computably (division by zero yields zero, as for
the standard `/` on ℚ). -/
def qDiv (a b : ℚ) : ℚ :=
  if 0 ≤ b.num then mkRat (a.num * (b.den : ℤ)) (a.den * b.num.natAbs)
  else mkRat (-(a.num * (b.den : ℤ))) (a.den * b.num.natAbs)

/-- Cast ℕ → ℚ, computably. -/
def qOfNat (n : ℕ) : ℚ := mkRat (n : ℤ) 1

/-! ### The pairing pass (`fingerprint_logic.py` lines 71-91) -/

/-- A spectral peak as the pairing pass sees it: `(time in s, frequency in Hz)`
(`peaks_list = list(zip(peak_times, peak_freqs_at_peaks))`). -/
abbrev Peak := ℚ × ℚ

/-- `TARGET_ZONE_START_TIME = 0.1` (fingerprint_logic.py:72). -/
def TARGET_ZONE_START_TIME : ℚ := mkRat 1 10

/-- `TARGET_ZONE_TIME_DURATION = 0.8` (fingerprint_logic.py:73). -/
def TARGET_ZONE_TIME_DURATION : ℚ := mkRat 8 10

/-- `TARGET_ZONE_FREQ_WIDTH = 200` (fingerprint_logic.py:74). -/
def TARGET_ZONE_FREQ_WIDTH : ℚ := 200

/-- The inner loop of the pairing pass (fingerprint_logic.py:83-91) for one
anchor: scan the peaks after the anchor in list order, stop (`break`) at the
first candidate whose time exceeds `t_max`, and emit `(hash, anchor_time)`
for every candidate inside both the time and the frequency window. -/
def scanFrom (H : ℚ → ℚ → ℚ → ℤ) (anchor_time anchor_freq t_min t_max f_min f_max : ℚ) :
    List Peak → List (ℤ × ℚ)
  | [] => []
  | (target_time, target_freq) :: rest =>
    if t_max < target_time then []
    else
      (if t_min ≤ target_time ∧ target_time ≤ t_max ∧
          f_min ≤ target_freq ∧ target_freq ≤ f_max then
        [(H anchor_freq target_freq (qSub target_time anchor_time), anchor_time)]
      else []) ++ scanFrom H anchor_time anchor_freq t_min t_max f_min f_max rest

/-- The outer loop of the pairing pass (fingerprint_logic.py:76-91): every
peak in turn is the anchor, paired against the peaks after it.  The window
bounds are computed once per anchor exactly as in the source
(`t_min = anchor_time + 0.1`, `t_max = t_min + 0.8`, `f_min/f_max =
anchor_freq ∓ 200`). -/
def fingerprintsOf (H : ℚ → ℚ → ℚ → ℤ) : List Peak → List (ℤ × ℚ)
  | [] => []
  | (anchor_time, anchor_freq) :: rest =>
    let t_min := qAdd anchor_time TARGET_ZONE_START_TIME
    let t_max := qAdd t_min TARGET_ZONE_TIME_DURATION
    let f_min := qSub anchor_freq TARGET_ZONE_FREQ_WIDTH
    let f_max := qAdd anchor_freq TARGET_ZONE_FREQ_WIDTH
    scanFrom H anchor_time anchor_freq t_min t_max f_min f_max rest ++
      fingerprintsOf H rest

/-- Modelled from the spec: the exhaustive inner scan that "checks every
later peak j > i against the target-zone windows", with no early exit.
Used only to state the refinement claim about the `break`. -/
def scanFromSpec (H : ℚ → ℚ → ℚ → ℤ) (anchor_time anchor_freq t_min t_max f_min f_max : ℚ) :
    List Peak → List (ℤ × ℚ)
  | [] => []
  | (target_time, target_freq) :: rest =>
    (if t_min ≤ target_time ∧ target_time ≤ t_max ∧
        f_min ≤ target_freq ∧ target_freq ≤ f_max then
      [(H anchor_freq target_freq (qSub target_time anchor_time), anchor_time)]
    else []) ++ scanFromSpec H anchor_time anchor_freq t_min t_max f_min f_max rest

/-- Modelled from the spec: the pairing pass with the exhaustive inner
scan in place of the early-exit scan. -/
def fingerprintsSpec (H : ℚ → ℚ → ℚ → ℤ) : List Peak → List (ℤ × ℚ)
  | [] => []
  | (anchor_time, anchor_freq) :: rest =>
    let t_min := qAdd anchor_time TARGET_ZONE_START_TIME
    let t_max := qAdd t_min TARGET_ZONE_TIME_DURATION
    let f_min := qSub anchor_freq TARGET_ZONE_FREQ_WIDTH
    let f_max := qAdd anchor_freq TARGET_ZONE_FREQ_WIDTH
    scanFromSpec H anchor_time anchor_freq t_min t_max f_min f_max rest ++
      fingerprintsSpec H rest

/-! ### Peak detection (`fingerprint_logic.py` lines 53-69) -/

/-- Read one cell of the spectrogram matrix, with the `mode='constant'`
padding of `scipy.ndimage.maximum_filter`: every out-of-range position
(negative or past the end) reads as the constant fill value `0`. -/
def entryZ (S : List (List ℚ)) (r c : ℤ) : ℚ :=
  if 0 ≤ r ∧ 0 ≤ c then ((((S.get? r.toNat).getD []).get? c.toNat)).getD 0 else 0

/-- The offsets of the centred 15×15 footprint
(`neighborhood_size = 15`, fingerprint_logic.py:56-57): -7 … 7. -/
def offsets15 : List ℤ := (List.range 15).map (fun d => (d : ℤ) - 7)

/-- Binary maximum on ℚ, written out as its if-then-else definition
(definitionally `max`, see `ratMax_eq_max`) so that concrete spectrograms
evaluate without deep reduction chains. -/
def ratMax (a b : ℚ) : ℚ := if a ≤ b then b else a

/-- `maximum_filter(S_db, footprint=np.ones((15, 15)), mode='constant')`
at one cell: the maximum of the 15×15 neighbourhood, out-of-range cells
reading as the padding value 0.  Computed row by row (the maximum of the
15 per-row maxima), which is the same maximum as over the flattened
neighbourhood. -/
def localMaxAt (S : List (List ℚ)) (r c : ℤ) : ℚ :=
  (offsets15.map (fun dr =>
    (offsets15.map (fun dc => entryZ S (r + dr) (c + dc))).foldr ratMax (entryZ S r c))).foldr
    ratMax (entryZ S r c)

/-- Length of row `r` of the matrix. -/
def rowLen (S : List (List ℚ)) (r : ℕ) : ℕ := ((S.get? r).getD []).length

/-- `amplitude_threshold = -50.0` (fingerprint_logic.py:59). -/
def amplitude_threshold : ℚ := -50

/-- `np.where((S_db == local_max) & (S_db > amplitude_threshold))`
(fingerprint_logic.py:58-60): the in-range bins, in row-major order, whose
value equals the neighbourhood maximum and strictly exceeds the floor. -/
def peaksWhere (S : List (List ℚ)) : List (ℕ × ℕ) :=
  (List.range S.length).flatMap (fun (r : ℕ) =>
    (List.range (rowLen S r)).filterMap (fun (c : ℕ) =>
      if entryZ S (r : ℤ) (c : ℤ) = localMaxAt S (r : ℤ) (c : ℤ) ∧
          amplitude_threshold < entryZ S (r : ℤ) (c : ℤ) then
        some (r, c)
      else none))

/-- `TARGET_SR = 11025` (fingerprint_logic.py:48). -/
def TARGET_SR : ℕ := 11025

/-- `n_fft = (D.shape[0] - 1) * 2` (fingerprint_logic.py:65), where the
rows of the spectrogram matrix are the frequency bins. -/
def n_fftOf (S : List (List ℚ)) : ℕ := (S.length - 1) * 2

/-- `librosa.fft_frequencies(sr=sr, n_fft=n_fft)[r] = sr * r / n_fft`. -/
def freqOfBin (S : List (List ℚ)) (r : ℕ) : ℚ :=
  qDiv (qMul (qOfNat TARGET_SR) (qOfNat r)) (qOfNat (n_fftOf S))

/-- `librosa.frames_to_time(frames=c, sr=sr, n_fft=n_fft)` with the
default `hop_length = 512`: time = (c * 512 + n_fft // 2) / sr. -/
def timeOfFrame (S : List (List ℚ)) (c : ℕ) : ℚ :=
  qDiv (qAdd (qMul (qOfNat c) 512) (qOfNat (n_fftOf S / 2))) (qOfNat TARGET_SR)

/-- Stable insertion of a peak into a time-sorted list (a peak is placed
before the first strictly-later entry, so equal times keep their original
relative order, matching Python's stable `sorted`). -/
def insertSorted (p : Peak) : List Peak → List Peak
  | [] => [p]
  | q :: qs => if p.1 ≤ q.1 then p :: q :: qs else q :: insertSorted p qs

/-- `sorted(peaks_list, key=lambda p: p[0])` (fingerprint_logic.py:69):
stable sort, ascending by time. -/
def sortByTime : List Peak → List Peak
  | [] => []
  | p :: ps => insertSorted p (sortByTime ps)

/-- The outcome of `librosa.load` plus the spectrogram computation on one
audio source: either the decibel spectrogram matrix, or the decode
exception the audio stack raised.  (The STFT and the decibel conversion
always succeed on a decoded signal.) -/
inductive LoadResult
  | ok (S : List (List ℚ))
  | err (msg : String)

/-- `fingerprint_song` (fingerprint_logic.py:32-97): the whole landmark
extraction.  The enclosing `try`/`except Exception` catches *any* failure
(including decode errors for unreadable, empty or unsupported sources) and
returns the empty list (fingerprint_logic.py:95-97).  On success: detect
peaks, return `[]` early if there are none (`if not peaks[0].any()`),
convert bins to physical units, sort by time and run the pairing pass. -/
def fingerprint_song (H : ℚ → ℚ → ℚ → ℤ) (load : LoadResult) : List (ℤ × ℚ) :=
  match load with
  | .err _ => []
  | .ok S =>
    let pk := peaksWhere S
    if pk = [] then []
    else
      let peaks_list := pk.map (fun rc => (timeOfFrame S rc.2, freqOfBin S rc.1))
      let sorted_peaks := sortByTime peaks_list
      fingerprintsOf H sorted_peaks

/-- `fingerprint_song` as run inside one CPython process: the hash at
fingerprint_logic.py:90 is the built-in `hash` of that interpreter. -/
def runFingerprintSong (p : PyProcess) (load : LoadResult) : List (ℤ × ℚ) :=
  fingerprint_song (processHash3 p) load

/-! ### Database state and the ingestion pipeline
(`fingerprint_logic.py` lines 100-289)

The PostgreSQL connection is modelled as explicit state: rows staged by
`cursor.execute`/`execute_values`/`copy_from` are pending inside the open
transaction until `conn.commit()` makes them durable; `conn.rollback()`
discards exactly the pending rows and never touches committed ones. -/

/-- Connection state: committed rows are durable, pending rows belong to
the open transaction.  A song row is `(szsongid, szsongtitle)`; a
fingerprint row is `(szSongID, offSetTime, intHash)`. -/
structure DBState where
  songs : List (String × String)
  fps : List (String × ℚ × ℤ)
  pendingSongs : List (String × String)
  pendingFps : List (String × ℚ × ℤ)
  deriving DecidableEq

/-- `conn.commit()`: pending rows become durable. -/
def commitDB (db : DBState) : DBState :=
  { songs := db.songs ++ db.pendingSongs
    fps := db.fps ++ db.pendingFps
    pendingSongs := []
    pendingFps := [] }

/-- `conn.rollback()`: pending rows are discarded; committed rows stay. -/
def rollbackDB (db : DBState) : DBState :=
  { db with pendingSongs := [], pendingFps := [] }

/-- `SELECT szsongid FROM cala_mdm_songs WHERE szsongtitle = %s` followed
by `fetchone()`: the first committed song row with this title, if any. -/
def lookupSongId (db : DBState) (title : String) : Option String :=
  (db.songs.find? (fun s => s.2 = title)).map (fun s => s.1)

/-- `generate_song_id` (fingerprint_logic.py:100-104): the date part comes
from `datetime.now().strftime("%Y%m%d")` and the uuid part from
`str(uuid.uuid4())[:8].upper()`; both are inputs here because they are
read from the clock and the random source. -/
def generate_song_id (datePart uuidPart : String) : String :=
  "SONG_" ++ datePart ++ "_" ++ uuidPart

/-- `os.path.splitext(name)[0]`: everything before the last dot, except
that a dot with only dots before it starts no extension (so `".bashrc"`
and `"..."` keep their name). -/
def dotChar : Char := ('.')

/-- Index of the last occurrence of a character in a list, if any. -/
def lastIdxOf (c : Char) : List Char → Option ℕ
  | [] => none
  | x :: xs =>
    match lastIdxOf c xs with
    | some i => some (i + 1)
    | none => if x = c then some 0 else none

/-- Stem of `os.path.splitext`. -/
def splitextStem (s : String) : String :=
  let cs := s.data
  match lastIdxOf dotChar cs with
  | none => s
  | some i => if (cs.take i).all (fun x => x = dotChar) then s else String.mk (cs.take i)

/-- Failure injection for `insert_song_and_fingerprints_fast`: whether the
song `INSERT` raises `psycopg2.Error`, whether `execute_values` raises
`psycopg2.Error`, and how many fingerprint rows `execute_values` had
already staged in the transaction when it raised. -/
structure FastEnv where
  songInsertFails : Bool
  execValuesFails : Bool
  partialStaged : ℕ
  deriving DecidableEq

/-- `insert_song_and_fingerprints_fast` (fingerprint_logic.py:227-289).
Control flow translated clause by clause:
1. `song_name = os.path.splitext(original_filename)[0]`;
2. dedupe `SELECT`: if a committed row with this title exists, return its
   `szsongid` (the skip path) without touching the database;
3. `INSERT` the song row and `conn.commit()` it on its own;
4. `fingerprints = fingerprint_song(file_path)`; if empty, return the new
   songId (success with zero fingerprint rows);
5. `execute_values(...)` then `conn.commit()`; on `psycopg2.Error`
   anywhere in the `try` the handler runs `conn.rollback()` and returns
   `None`.  There is no batched fallback in this function.
The fresh `generate_song_id()` value is the `newSongId` argument. -/
def insert_song_and_fingerprints_fast (env : FastEnv) (H : ℚ → ℚ → ℚ → ℤ)
    (db : DBState) (load : LoadResult) (original_filename newSongId : String) :
    DBState × Option String :=
  let song_name := splitextStem original_filename
  match lookupSongId db song_name with
  | some sid => (db, some sid)
  | none =>
    if env.songInsertFails then (rollbackDB db, none)
    else
      let db1 := commitDB { db with pendingSongs := db.pendingSongs ++ [(newSongId, song_name)] }
      let fingerprints := fingerprint_song H load
      if fingerprints = [] then (db1, some newSongId)
      else
        let fingerprint_tuples := fingerprints.map (fun hf => (newSongId, hf.2, hf.1))
        if env.execValuesFails then
          (rollbackDB { db1 with pendingFps := db1.pendingFps ++ fingerprint_tuples.take env.partialStaged }, none)
        else
          let db2 := commitDB { db1 with pendingFps := db1.pendingFps ++ fingerprint_tuples }
          (db2, some newSongId)

/-- The characters of the literal `'.mp3'`. -/
def dotMp3Chars : List Char := ['.', 'm', 'p', '3']

/-- `str.replace('.mp3', '')`: remove every (left-to-right, non-overlapping)
occurrence of `.mp3`.  Fuel-driven so the definition stays kernel-reducible;
the list length is always enough fuel. -/
def stripMp3F : ℕ → List Char → List Char
  | 0, cs => cs
  | _ + 1, [] => []
  | fuel + 1, c :: cs =>
    if (c :: cs).take 4 = dotMp3Chars then stripMp3F fuel ((c :: cs).drop 4)
    else c :: stripMp3F fuel cs

/-- `os.path.basename(file_path).replace('.mp3', '')` (fingerprint_logic.py:109). -/
def slashChar : Char := ('/')

/-- `os.path.basename`: the part after the last path separator. -/
def basenameOf (s : String) : String :=
  String.mk ((s.data.reverse.takeWhile (fun c => c ≠ slashChar)).reverse)

/-- Song title used by the slow path: basename with every `.mp3` removed. -/
def mp3StemOf (file_path : String) : String :=
  let b := (basenameOf file_path).data
  String.mk (stripMp3F b.length b)

/-- Split a list into consecutive chunks of size `bs` (the slices
`tuples[i : i + batch_size]` of the fallback loop).  Fuel-driven; the list
length is enough fuel whenever `bs ≥ 1`. -/
def chunksF {α : Type} : ℕ → List α → ℕ → List (List α)
  | 0, _, _ => []
  | _ + 1, [], _ => []
  | fuel + 1, l, bs => l.take bs :: chunksF fuel (l.drop bs) bs

/-- The batches the fallback loop walks through. -/
def chunksOf {α : Type} (l : List α) (bs : ℕ) : List (List α) := chunksF l.length l bs

/-- Failure injection for `insert_song_and_fingerprints`: whether the song
`INSERT` raises, whether `cursor.copy_from` raises (which triggers the
fallback), at which batch index `cursor.executemany` raises (if at all),
and how many rows of that batch were already staged when it raised. -/
structure SlowEnv where
  songInsertFails : Bool
  copyFails : Bool
  batchFailAt : Option ℕ
  partialStaged : ℕ
  deriving DecidableEq

/-- The fallback loop (fingerprint_logic.py:194-201):
`for i in range(0, len(fingerprint_tuples), batch_size)`, staging one batch
with `cursor.executemany` and committing it immediately with
`conn.commit()`.  `k` is the index of the batch at the head of `chs`.
Returns the connection state plus whether `executemany` raised (the raise
propagates to the outer handler). -/
def runBatches (failAt : Option ℕ) (partialStaged : ℕ) :
    List (List (String × ℚ × ℤ)) → ℕ → DBState → DBState × Bool
  | [], _, db => (db, false)
  | b :: bs, k, db =>
    if failAt = some k then
      ({ db with pendingFps := db.pendingFps ++ b.take partialStaged }, true)
    else
      runBatches failAt partialStaged bs (k + 1)
        (commitDB { db with pendingFps := db.pendingFps ++ b })

/-- `insert_song_and_fingerprints` (fingerprint_logic.py:106-223), the slow
path with the two-strategy bulk persistence:
1. `song_name = os.path.basename(file_path).replace('.mp3', '')`;
2. dedupe `SELECT` on committed rows, returning the existing id if found;
3. `INSERT` the song row, `conn.commit()` it;
4. `fingerprints = fingerprint_song(file_path)`; if empty, return songId;
5. fast path: `cursor.copy_from` of all rows (committed by the final
   `conn.commit()` at line 206); on any exception from the copy, the
   fallback loop `runBatches` commits fixed-size batches one by one; if
   `executemany` raises partway, the outer `except psycopg2.Error` handler
   rolls back the pending (uncommitted) rows and returns `None` — the
   batches already committed stay. -/
def insert_song_and_fingerprints (env : SlowEnv) (H : ℚ → ℚ → ℚ → ℤ)
    (db : DBState) (load : LoadResult) (file_path newSongId : String)
    (batch_size : ℕ) : DBState × Option String :=
  let song_name := mp3StemOf file_path
  match lookupSongId db song_name with
  | some sid => (db, some sid)
  | none =>
    if env.songInsertFails then (rollbackDB db, none)
    else
      let db1 := commitDB { db with pendingSongs := db.pendingSongs ++ [(newSongId, song_name)] }
      let fingerprints := fingerprint_song H load
      if fingerprints = [] then (db1, some newSongId)
      else
        let fingerprint_tuples := fingerprints.map (fun hf => (newSongId, hf.2, hf.1))
        if env.copyFails then
          let out := runBatches env.batchFailAt env.partialStaged
            (chunksOf fingerprint_tuples batch_size) 0 db1
          if out.2 then (rollbackDB out.1, none)
          else (commitDB out.1, some newSongId)
        else
          (commitDB { db1 with pendingFps := db1.pendingFps ++ fingerprint_tuples }, some newSongId)

/-! ### The HTTP upload handler (`main.py` lines 50-103) -/

/-- Python's substring test `needle in hay`, prefix check at one position. -/
def startsWithChars : List Char → List Char → Bool
  | [], _ => true
  | _ :: _, [] => false
  | a :: as, b :: bs => a = b && startsWithChars as bs

/-- Python's substring test `needle in hay`, over all positions. -/
def occursIn (needle : List Char) : List Char → Bool
  | [] => needle.isEmpty
  | b :: bs => startsWithChars needle (b :: bs) || occursIn needle bs

/-- Python's `needle in hay` on strings. -/
def pyStrContains (needle hay : String) : Bool := occursIn needle.data hay.data

/-- The string literal compared against the songId in `main.py:87`. -/
def alreadyExistsLit : String := "already exists"

/-- What `create_upload_file` answers. -/
inductive UploadOutcome
  | success (songId : String)
  | skipped
  | httpError (code : ℕ)
  deriving DecidableEq

/-- The result mapping of `main.py` lines 85-91: a `None` from the pipeline
becomes HTTP 500; otherwise the handler sniffs the *songId string* for the
substring `"already exists"` to decide between the skipped and the success
answer. -/
def uploadOutcomeOf (song_id : Option String) : UploadOutcome :=
  match song_id with
  | none => .httpError 500
  | some sid =>
    if pyStrContains alreadyExistsLit sid then .skipped else .success sid

/-- `insert_song_and_fingerprints_fast` has three parameters without a
default value: `conn`, `file_path`, `original_filename`
(fingerprint_logic.py:227). -/
def fastRequiredArgCount : ℕ := 3

/-- The call at `main.py:83` passes two positional arguments:
`insert_song_and_fingerprints_fast(conn, temp_local_path)`. -/
def mainUploadCallArgCount : ℕ := 2

/-- Whether the call at `main.py:83` raises `TypeError` at binding time
(a required positional argument is missing). -/
def mainUploadCallRaisesTypeError : Bool :=
  decide (mainUploadCallArgCount < fastRequiredArgCount)

/-- The whole request handler `create_upload_file` as observable from the
outside: the pipeline call at `main.py:83` is attempted first; if it
raises `TypeError` the enclosing `except Exception` turns the request into
HTTP 500; otherwise the pipeline result is mapped by the status sniff of
lines 85-91. -/
def create_upload_file (pipelineResult : Option String) : UploadOutcome :=
  if mainUploadCallRaisesTypeError then .httpError 500
  else uploadOutcomeOf pipelineResult

/-! ### The Celery worker (`tasks.py`) -/

/-- The names bound at module level in `tasks.py`: the five imports
(`os`, `ssl`, `tempfile`, `requests`, `Celery`), the two names imported
from `fingerprint_logic`, and the module-level assignments/definitions.
`shutil` is not among them — `tasks.py` has no `import shutil`. -/
def tasksModuleNames : List String :=
  ["os", "ssl", "tempfile", "requests", "Celery",
   "connect_to_db", "insert_song_and_fingerprints_fast",
   "redis_url", "celery_app",
   "download_file_from_url", "process_fingerprints"]

/-- The name looked up by the expression `shutil.copyfileobj` at
`tasks.py:31`. -/
def shutilName : String := "shutil"

/-- Exceptions the worker can propagate. -/
inductive PyErr
  | nameError (n : String)
  | httpError
  | workerFailure (msg : String)
  deriving DecidableEq

/-- The local filesystem as the worker sees it: the set of temporary files
currently existing. -/
structure FsState where
  tempFiles : List String
  deriving DecidableEq

/-- `download_file_from_url` (tasks.py:21-34): `requests.get` plus
`raise_for_status` (the `httpOk` input says whether that succeeds), then
`tempfile.mkstemp` creates the temporary file, then the body of the
`with open(...)` block evaluates `shutil.copyfileobj` — a global-name
lookup of `shutil` in the module namespace, raising `NameError` when the
name is unbound.  Only on success is the temp path returned. -/
def download_file_from_url (httpOk : Bool) (mkstempPath : String) (fs : FsState) :
    FsState × Except PyErr String :=
  if httpOk = false then (fs, .error PyErr.httpError)
  else
    let fs1 : FsState := ⟨fs.tempFiles ++ [mkstempPath]⟩
    if shutilName ∈ tasksModuleNames then (fs1, .ok mkstempPath)
    else (fs1, .error (PyErr.nameError shutilName))

/-- `process_fingerprints` (tasks.py:36-75): `temp_local_path` starts as
`None`; the download is the first statement of the `try`, so when it
raises, the `finally` block sees `temp_local_path is None` and removes
nothing.  When the download returns a path, the worker connects to the
database (`dbOk`), runs the pipeline (its answer is `insertResult`),
treats `None` as a failure, and the `finally` block then unlinks the
temporary file. -/
def process_fingerprints (httpOk dbOk : Bool) (insertResult : Option String)
    (mkstempPath : String) (fs : FsState) : FsState × Except PyErr String :=
  let step := download_file_from_url httpOk mkstempPath fs
  match step.2 with
  | .error e => (step.1, .error e)
  | .ok temp_local_path =>
    let result : Except PyErr String :=
      if dbOk = false then .error (PyErr.workerFailure ("Database connection failed."))
      else
        match insertResult with
        | some sid => .ok sid
        | none => .error (PyErr.workerFailure ("Failed to process fingerprints."))
    (⟨step.1.tempFiles.filter (fun p => p ≠ temp_local_path)⟩, result)

/-! ### Concrete inputs used by witnesses and counterexamples -/

/-- A connection with nothing committed and nothing pending. -/
def emptyDB : DBState := ⟨[], [], [], []⟩

/-- A hash function with no arithmetic content, for witnesses whose claim
does not depend on the hash values. -/
def constHash : ℚ → ℚ → ℚ → ℤ := fun _ _ _ => 0

/-- A two-peak time-sorted sequence whose second peak lies inside the
first peak's target zone (Δt = 1/5 s, Δf = 0 Hz). -/
def demoPeaks : List Peak := [((0 : ℚ), (0 : ℚ)), (mkRat 1 5, (0 : ℚ))]

/-- A tiny decibel spectrogram (3 frequency bins × 4 frames, values in dB
relative to the maximum, so the two loudest bins read 0): its peaks are the
two 0 dB bins at row 0, frames 0 and 3, which pair with each other
(Δt = 1536/11025 s ≈ 0.139 s, Δf = 0 Hz). -/
def exSpec : List (List ℚ) :=
  [[0, -60, -60, 0],
   [-60, -60, -60, -60],
   [-60, -60, -60, -60]]

/-- A spectrogram with a tied maximum: the two adjacent bins (0,0) and
(0,1) both read 0 dB, so each equals (but does not strictly exceed) the
other inside its own 15×15 neighbourhood. -/
def exTie : List (List ℚ) := [[0, 0], [-60, -60]]

/-- A single 0 dB bin: the one peak of a one-bin spectrogram. -/
def exOneBin : List (List ℚ) := [[(0 : ℚ)]]

/-! ### Theorems -/

set_option maxRecDepth 6000

theorem qAdd_eq (a b : ℚ) : qAdd a b = a + b := by
  have ha : ((a.den : ℚ)) ≠ 0 := by exact_mod_cast a.den_ne_zero
  have hb : ((b.den : ℚ)) ≠ 0 := by exact_mod_cast b.den_ne_zero
  rw [qAdd, Rat.mkRat_eq_div]
  conv_rhs => rw [← Rat.num_div_den a, ← Rat.num_div_den b]
  rw [div_add_div _ _ ha hb]
  push_cast
  ring_nf

theorem qSub_eq (a b : ℚ) : qSub a b = a - b := by
  have ha : ((a.den : ℚ)) ≠ 0 := by exact_mod_cast a.den_ne_zero
  have hb : ((b.den : ℚ)) ≠ 0 := by exact_mod_cast b.den_ne_zero
  rw [qSub, Rat.mkRat_eq_div]
  conv_rhs => rw [← Rat.num_div_den a, ← Rat.num_div_den b]
  rw [div_sub_div _ _ ha hb]
  push_cast
  ring_nf

theorem mem_scanFrom {H : ℚ → ℚ → ℚ → ℤ} {aT aF tmin tmax fmin fmax : ℚ}
    {rest : List Peak} {fp : ℤ × ℚ}
    (h : fp ∈ scanFrom H aT aF tmin tmax fmin fmax rest) :
    ∃ j, ∃ hj : j < rest.length,
      tmin ≤ (rest.get ⟨j, hj⟩).1 ∧ (rest.get ⟨j, hj⟩).1 ≤ tmax ∧
      fmin ≤ (rest.get ⟨j, hj⟩).2 ∧ (rest.get ⟨j, hj⟩).2 ≤ fmax ∧
      fp = (H aF (rest.get ⟨j, hj⟩).2 (qSub (rest.get ⟨j, hj⟩).1 aT), aT) := by
  induction rest with
  | nil => simp [scanFrom] at h
  | cons p rest ih =>
    obtain ⟨tt, tf⟩ := p
    rw [scanFrom] at h
    by_cases hb : tmax < tt
    · rw [if_pos hb] at h
      simp at h
    · rw [if_neg hb] at h
      rcases List.mem_append.1 h with h1 | h2
      · by_cases hc : tmin ≤ tt ∧ tt ≤ tmax ∧ fmin ≤ tf ∧ tf ≤ fmax
        · rw [if_pos hc] at h1
          rw [List.mem_singleton] at h1
          exact ⟨0, Nat.succ_pos _, hc.1, hc.2.1, hc.2.2.1, hc.2.2.2, h1⟩
        · rw [if_neg hc] at h1
          simp at h1
      · obtain ⟨j, hj, hprop⟩ := ih h2
        exact ⟨j + 1, Nat.succ_lt_succ hj, hprop⟩

/-- C4: every fingerprint emitted by the pairing pass pairs an anchor peak
at time T and frequency F (position i) with a later candidate (position
j > i) whose time lies in [T + 0.1 s, T + 0.9 s] and whose frequency lies
in [F − 200 Hz, F + 200 Hz]; the fingerprint's anchorTime is T and its
hash is computed from (anchor frequency, candidate frequency,
candidate time − T).  No fingerprint pairing a candidate outside these
windows is ever emitted (this holds for every peak sequence, sorted or
not). -/
theorem C4_pairing_windows (H : ℚ → ℚ → ℚ → ℤ) (ps : List Peak) (fp : ℤ × ℚ)
    (hmem : fp ∈ fingerprintsOf H ps) :
    ∃ i j, ∃ hi : i < ps.length, ∃ hj : j < ps.length, i < j ∧
      (ps.get ⟨i, hi⟩).1 + 1/10 ≤ (ps.get ⟨j, hj⟩).1 ∧
      (ps.get ⟨j, hj⟩).1 ≤ (ps.get ⟨i, hi⟩).1 + 9/10 ∧
      (ps.get ⟨i, hi⟩).2 - 200 ≤ (ps.get ⟨j, hj⟩).2 ∧
      (ps.get ⟨j, hj⟩).2 ≤ (ps.get ⟨i, hi⟩).2 + 200 ∧
      fp = (H (ps.get ⟨i, hi⟩).2 (ps.get ⟨j, hj⟩).2
              ((ps.get ⟨j, hj⟩).1 - (ps.get ⟨i, hi⟩).1), (ps.get ⟨i, hi⟩).1) := by
  have eS : TARGET_ZONE_START_TIME = (1 : ℚ)/10 := by
    rw [TARGET_ZONE_START_TIME, Rat.mkRat_eq_div]
    norm_num
  have eD : TARGET_ZONE_TIME_DURATION = (8 : ℚ)/10 := by
    rw [TARGET_ZONE_TIME_DURATION, Rat.mkRat_eq_div]
    norm_num
  have eF : TARGET_ZONE_FREQ_WIDTH = (200 : ℚ) := rfl
  induction ps with
  | nil => simp [fingerprintsOf] at hmem
  | cons p rest ih =>
    obtain ⟨aT, aF⟩ := p
    simp only [fingerprintsOf] at hmem
    rcases List.mem_append.1 hmem with h1 | h2
    · obtain ⟨j, hj, ht1, ht2, hf1, hf2, hfp⟩ := mem_scanFrom h1
      rw [qAdd_eq, eS] at ht1
      rw [qAdd_eq, qAdd_eq, eS, eD] at ht2
      rw [qSub_eq, eF] at hf1
      rw [qAdd_eq, eF] at hf2
      rw [qSub_eq] at hfp
      have ht2' : (rest.get ⟨j, hj⟩).1 ≤ aT + 9/10 := by linarith
      exact ⟨0, j + 1, Nat.succ_pos _, Nat.succ_lt_succ hj, Nat.succ_pos _,
        ht1, ht2', hf1, hf2, hfp⟩
    · obtain ⟨i, j, hi, hj, hij, g1, g2, g3, g4, g5⟩ := ih h2
      exact ⟨i + 1, j + 1, Nat.succ_lt_succ hi, Nat.succ_lt_succ hj,
        Nat.succ_lt_succ hij, g1, g2, g3, g4, g5⟩

theorem C4_pairing_windows_witness :
    (((0 : ℤ), (0 : ℚ)) ∈ fingerprintsOf constHash demoPeaks) ∧
    (∃ i j, ∃ hi : i < demoPeaks.length, ∃ hj : j < demoPeaks.length, i < j ∧
      (demoPeaks.get ⟨i, hi⟩).1 + 1/10 ≤ (demoPeaks.get ⟨j, hj⟩).1 ∧
      (demoPeaks.get ⟨j, hj⟩).1 ≤ (demoPeaks.get ⟨i, hi⟩).1 + 9/10 ∧
      (demoPeaks.get ⟨i, hi⟩).2 - 200 ≤ (demoPeaks.get ⟨j, hj⟩).2 ∧
      (demoPeaks.get ⟨j, hj⟩).2 ≤ (demoPeaks.get ⟨i, hi⟩).2 + 200 ∧
      ((0 : ℤ), (0 : ℚ)) = (constHash (demoPeaks.get ⟨i, hi⟩).2 (demoPeaks.get ⟨j, hj⟩).2
          ((demoPeaks.get ⟨j, hj⟩).1 - (demoPeaks.get ⟨i, hi⟩).1), (demoPeaks.get ⟨i, hi⟩).1)) :=
  ⟨by decide, C4_pairing_windows constHash demoPeaks ((0 : ℤ), (0 : ℚ)) (by decide)⟩

theorem scanFromSpec_eq_nil_of_late {H : ℚ → ℚ → ℚ → ℤ} {aT aF tmin tmax fmin fmax : ℚ}
    {rest : List Peak} (h : ∀ p ∈ rest, tmax < p.1) :
    scanFromSpec H aT aF tmin tmax fmin fmax rest = [] := by
  induction rest with
  | nil => rfl
  | cons p rest ih =>
    obtain ⟨tt, tf⟩ := p
    have h1 : tmax < tt := h (tt, tf) (List.mem_cons_self _ _)
    rw [scanFromSpec, if_neg, List.nil_append]
    · exact ih (fun q hq => h q (List.mem_cons_of_mem _ hq))
    · rintro ⟨-, h2, -⟩
      exact absurd h2 (not_le.2 h1)

theorem scanFrom_eq_scanFromSpec {H : ℚ → ℚ → ℚ → ℤ} {aT aF tmin tmax fmin fmax : ℚ}
    {rest : List Peak} (h : rest.Pairwise (fun p q : Peak => p.1 ≤ q.1)) :
    scanFrom H aT aF tmin tmax fmin fmax rest =
      scanFromSpec H aT aF tmin tmax fmin fmax rest := by
  induction rest with
  | nil => rfl
  | cons p rest ih =>
    obtain ⟨tt, tf⟩ := p
    rw [List.pairwise_cons] at h
    by_cases hb : tmax < tt
    · rw [scanFrom, if_pos hb, scanFromSpec, if_neg, List.nil_append,
        scanFromSpec_eq_nil_of_late (fun q hq => lt_of_lt_of_le hb (h.1 q hq))]
      rintro ⟨-, h2, -⟩
      exact absurd h2 (not_le.2 hb)
    · rw [scanFrom, if_neg hb, scanFromSpec, ih h.2]

/-- C5: on a peak sequence sorted ascending by time, the early-exit inner
scan (stop at the first candidate past the anchor's upper time bound)
emits exactly the same fingerprints, in the same order, as the exhaustive
scan that checks every later peak against the target-zone windows. -/
theorem C5_early_exit_exhaustive (H : ℚ → ℚ → ℚ → ℤ) (ps : List Peak)
    (h : ps.Pairwise (fun p q : Peak => p.1 ≤ q.1)) :
    fingerprintsOf H ps = fingerprintsSpec H ps := by
  induction ps with
  | nil => rfl
  | cons p rest ih =>
    obtain ⟨aT, aF⟩ := p
    rw [List.pairwise_cons] at h
    simp only [fingerprintsOf, fingerprintsSpec]
    rw [scanFrom_eq_scanFromSpec h.2, ih h.2]

theorem C5_early_exit_exhaustive_witness :
    demoPeaks.Pairwise (fun p q : Peak => p.1 ≤ q.1) ∧
    fingerprintsOf constHash demoPeaks = fingerprintsSpec constHash demoPeaks :=
  ⟨by decide, C5_early_exit_exhaustive constHash demoPeaks (by decide)⟩

theorem ratMax_eq_max (a b : ℚ) : ratMax a b = max a b := by
  rw [ratMax, max_def]

theorem le_foldr_ratMax {l : List ℚ} {a : ℚ} (init : ℚ) (h : a ∈ l) :
    a ≤ l.foldr ratMax init := by
  induction l with
  | nil => cases h
  | cons b bs ih =>
    rcases List.mem_cons.1 h with rfl | h2
    · show a ≤ ratMax a (bs.foldr ratMax init)
      rw [ratMax]
      split
      · assumption
      · exact le_refl a
    · show a ≤ ratMax b (bs.foldr ratMax init)
      rw [ratMax]
      split
      · exact ih h2
      · exact le_trans (ih h2) (le_of_not_le (by assumption))

theorem mem_peaksWhere {S : List (List ℚ)} {r c : ℕ} (h : (r, c) ∈ peaksWhere S) :
    entryZ S (r : ℤ) (c : ℤ) = localMaxAt S (r : ℤ) (c : ℤ) ∧
    amplitude_threshold < entryZ S (r : ℤ) (c : ℤ) := by
  unfold peaksWhere at h
  rw [List.mem_flatMap] at h
  obtain ⟨r1, _, hc⟩ := h
  rw [List.mem_filterMap] at hc
  obtain ⟨c1, _, heq⟩ := hc
  split at heq
  · have h2 : (r1, c1) = (r, c) := Option.some.inj heq
    injection h2 with ha hb
    subst ha
    subst hb
    assumption
  · cases heq

theorem neighbor_le_localMaxAt {S : List (List ℚ)} {r c dr dc : ℤ}
    (hdr : dr ∈ offsets15) (hdc : dc ∈ offsets15) :
    entryZ S (r + dr) (c + dc) ≤ localMaxAt S r c := by
  have h1 : entryZ S (r + dr) (c + dc) ∈
      offsets15.map (fun dc2 => entryZ S (r + dr) (c + dc2)) :=
    List.mem_map_of_mem _ hdc
  have h2 := le_foldr_ratMax (entryZ S r c) h1
  have h3 : (offsets15.map (fun dc2 => entryZ S (r + dr) (c + dc2))).foldr ratMax
      (entryZ S r c) ∈ offsets15.map (fun dr2 =>
        (offsets15.map (fun dc2 => entryZ S (r + dr2) (c + dc2))).foldr ratMax
          (entryZ S r c)) :=
    List.mem_map_of_mem _ hdr
  exact le_trans h2 (le_foldr_ratMax (entryZ S r c) h3)

/-- C8 (amended): every peak returned by peak detection strictly exceeds
the −50 dB amplitude floor — no bin at or below the floor is ever
returned — and its magnitude is a maximum of its 15×15-bin neighbourhood:
no neighbouring bin (nor the 0 dB constant padding) exceeds it.  It need
not be *strictly* the maximum: ties with other bins in the neighbourhood
are possible and both tied bins are returned (see the counterexample). -/
theorem C8_peak_validity (S : List (List ℚ)) (r c : ℕ)
    (h : (r, c) ∈ peaksWhere S) :
    (-50 : ℚ) < entryZ S (r : ℤ) (c : ℤ) ∧
    ∀ dr ∈ offsets15, ∀ dc ∈ offsets15,
      entryZ S ((r : ℤ) + dr) ((c : ℤ) + dc) ≤ entryZ S (r : ℤ) (c : ℤ) := by
  obtain ⟨hmax, hfloor⟩ := mem_peaksWhere h
  refine ⟨hfloor, ?_⟩
  intro dr hdr dc hdc
  rw [hmax]
  exact neighbor_le_localMaxAt hdr hdc

theorem C8_peak_validity_witness :
    ((0, 0) ∈ peaksWhere exOneBin) ∧
    ((-50 : ℚ) < entryZ exOneBin ((0 : ℕ) : ℤ) ((0 : ℕ) : ℤ) ∧
      ∀ dr ∈ offsets15, ∀ dc ∈ offsets15,
        entryZ exOneBin (((0 : ℕ) : ℤ) + dr) (((0 : ℕ) : ℤ) + dc) ≤
          entryZ exOneBin ((0 : ℕ) : ℤ) ((0 : ℕ) : ℤ)) :=
  ⟨by decide, C8_peak_validity exOneBin 0 0 (by decide)⟩

/-- C8 (counterexample to the claim as stated): in the spectrogram
`exTie` the bin (0,0) is returned as a peak, yet it is not *strictly* the
maximum of its 15×15 neighbourhood — the neighbouring bin at offset
(0,1) holds exactly the same magnitude. -/
theorem C8_peak_validity_counterexample :
    ((0, 0) ∈ peaksWhere exTie) ∧
    ¬ (∀ dr ∈ offsets15, ∀ dc ∈ offsets15, (dr, dc) ≠ ((0 : ℤ), (0 : ℤ)) →
        entryZ exTie ((0 : ℤ) + dr) ((0 : ℤ) + dc) < entryZ exTie (0 : ℤ) (0 : ℤ)) := by
  constructor
  · decide
  · intro hstrict
    have h01 : ((1 : ℤ)) ∈ offsets15 := by decide
    have h00 : ((0 : ℤ)) ∈ offsets15 := by decide
    have := hstrict 0 h00 1 h01 (by decide)
    have heq : entryZ exTie ((0 : ℤ) + 0) ((0 : ℤ) + 1) = entryZ exTie 0 0 := by decide
    rw [heq] at this
    exact lt_irrefl _ this

/-- C1 (amended): on a fixed interpreter build, `fingerprint_song` is a
pure function of the audio input — two extraction runs in different
processes (different `PYTHONHASHSEED` values, e.g. across process
restarts or concurrent workers) produce the identical fingerprint
sequence, in the same order, because the built-in numeric hash never
consults the per-process seed.  Across machine architectures the claim
fails: see the counterexample, a 32-bit CPython build hashes with a
different modulus and different tuple constants than a 64-bit build. -/
theorem C1_determinism_within_build (w : PyWord) (seed1 seed2 : ℕ) (load : LoadResult) :
    runFingerprintSong ⟨w, seed1⟩ load = runFingerprintSong ⟨w, seed2⟩ load := rfl

/-- C1 (counterexample to the claim as stated): on the concrete
spectrogram `exSpec` the fingerprint sequences produced on a 64-bit and
on a 32-bit CPython build differ — the built-in `hash` of the same float
tuple is a different number on the two architectures, so the produced
(hash, anchorTime) list is not identical across machine architectures. -/
theorem C1_determinism_counterexample :
    runFingerprintSong ⟨.w64, 0⟩ (.ok exSpec) ≠ runFingerprintSong ⟨.w32, 0⟩ (.ok exSpec) := by
  decide

/-- C2 (amended): an unreadable, empty or unsupported audio source does
not fail the job: the blanket `except Exception` in `fingerprint_song`
(fingerprint_logic.py:95-97) turns the decode error into an empty
fingerprint list, and `insert_song_and_fingerprints_fast` then completes
as a success — the Song row is inserted and committed, the new songId is
returned, and zero fingerprint rows are persisted.  No `DecodeError`
(nor any other failure) reaches the caller. -/
theorem C2_decode_error_success (env : FastEnv) (H : ℚ → ℚ → ℚ → ℤ) (db : DBState)
    (msg name sid : String)
    (h1 : env.songInsertFails = false)
    (h2 : lookupSongId db (splitextStem name) = none)
    (h3 : db.pendingSongs = [])
    (h4 : db.pendingFps = []) :
    fingerprint_song H (.err msg) = [] ∧
    insert_song_and_fingerprints_fast env H db (.err msg) name sid =
      ({ songs := db.songs ++ [(sid, splitextStem name)], fps := db.fps,
         pendingSongs := [], pendingFps := [] }, some sid) := by
  refine ⟨rfl, ?_⟩
  simp only [insert_song_and_fingerprints_fast, h2, h1, fingerprint_song, commitDB, h3, h4]
  simp

theorem C2_decode_error_success_witness :
    ((⟨false, false, 0⟩ : FastEnv).songInsertFails = false) ∧
    (lookupSongId emptyDB (splitextStem ("track.mp3")) = none) ∧
    (emptyDB.pendingSongs = []) ∧ (emptyDB.pendingFps = []) ∧
    (fingerprint_song constHash (.err ("unreadable")) = [] ∧
      insert_song_and_fingerprints_fast ⟨false, false, 0⟩ constHash emptyDB
          (.err ("unreadable")) ("track.mp3") ("SONG_20260101_AAAA1111") =
        ({ songs := emptyDB.songs ++ [(("SONG_20260101_AAAA1111"), splitextStem ("track.mp3"))],
           fps := emptyDB.fps, pendingSongs := [], pendingFps := [] }, some ("SONG_20260101_AAAA1111"))) :=
  ⟨rfl, by decide, rfl, rfl,
    C2_decode_error_success ⟨false, false, 0⟩ constHash emptyDB ("unreadable")
      ("track.mp3") ("SONG_20260101_AAAA1111") rfl (by decide) rfl rfl⟩

/-- C2 (counterexample to the claim as stated): with an unreadable source
the job does not terminate as failed — it returns a songId (a success)
and leaves a committed Song row with zero fingerprint rows. -/
theorem C2_decode_error_counterexample :
    (insert_song_and_fingerprints_fast ⟨false, false, 0⟩ constHash emptyDB
        (.err ("unreadable")) ("track.mp3") ("SONG_20260101_AAAA1111")).2 =
      some ("SONG_20260101_AAAA1111") ∧
    (insert_song_and_fingerprints_fast ⟨false, false, 0⟩ constHash emptyDB
        (.err ("unreadable")) ("track.mp3") ("SONG_20260101_AAAA1111")).1.songs =
      [(("SONG_20260101_AAAA1111"), ("track"))] ∧
    (insert_song_and_fingerprints_fast ⟨false, false, 0⟩ constHash emptyDB
        (.err ("unreadable")) ("track.mp3") ("SONG_20260101_AAAA1111")).1.fps = [] := by
  refine ⟨by decide, by decide, by decide⟩

/-- C7: any input whose extraction yields zero fingerprints (a silent,
zero-length or extremely short signal, which produces no peaks) makes
ingestion succeed: the Song row is inserted and committed, its songId is
returned, zero fingerprint rows are persisted, and no error is raised
(the function returns normally with a songId rather than `None`). -/
theorem C7_zero_fingerprints_success (env : FastEnv) (H : ℚ → ℚ → ℚ → ℤ)
    (db : DBState) (load : LoadResult) (name sid : String)
    (h1 : env.songInsertFails = false)
    (h2 : lookupSongId db (splitextStem name) = none)
    (h3 : db.pendingSongs = [])
    (h4 : db.pendingFps = [])
    (h5 : fingerprint_song H load = []) :
    insert_song_and_fingerprints_fast env H db load name sid =
      ({ songs := db.songs ++ [(sid, splitextStem name)], fps := db.fps,
         pendingSongs := [], pendingFps := [] }, some sid) := by
  simp only [insert_song_and_fingerprints_fast, h2, h1, h5, commitDB, h3, h4]
  simp

theorem C7_zero_fingerprints_success_witness :
    (fingerprint_song constHash (.ok ([] : List (List ℚ))) = []) ∧
    insert_song_and_fingerprints_fast ⟨false, false, 0⟩ constHash emptyDB
        (.ok ([] : List (List ℚ))) ("track.mp3") ("SID0") =
      ({ songs := [(("SID0"), ("track"))], fps := [],
         pendingSongs := [], pendingFps := [] }, some ("SID0")) :=
  ⟨rfl, C7_zero_fingerprints_success ⟨false, false, 0⟩ constHash emptyDB
    (.ok ([] : List (List ℚ))) ("track.mp3") ("SID0") rfl (by decide) rfl rfl rfl⟩

/-- C9: in `insert_song_and_fingerprints_fast` a failure of the single
`execute_values` bulk insert is terminal — the function contains no
batched fallback; the `except psycopg2.Error` handler rolls back the
pending fingerprint rows and returns `None`, while the Song row committed
earlier in the same call stays persisted and no fingerprint row for the
new songId exists. -/
theorem C9_fast_bulk_failure_terminal (env : FastEnv) (H : ℚ → ℚ → ℚ → ℤ)
    (db : DBState) (load : LoadResult) (name sid : String)
    (h1 : env.songInsertFails = false)
    (h2 : env.execValuesFails = true)
    (h3 : lookupSongId db (splitextStem name) = none)
    (h4 : db.pendingSongs = [])
    (h5 : db.pendingFps = [])
    (h6 : fingerprint_song H load ≠ [])
    (h7 : ∀ row ∈ db.fps, row.1 ≠ sid) :
    insert_song_and_fingerprints_fast env H db load name sid =
      ({ songs := db.songs ++ [(sid, splitextStem name)], fps := db.fps,
         pendingSongs := [], pendingFps := [] }, none) ∧
    ∀ row ∈ (insert_song_and_fingerprints_fast env H db load name sid).1.fps,
      row.1 ≠ sid := by
  have hmain : insert_song_and_fingerprints_fast env H db load name sid =
      ({ songs := db.songs ++ [(sid, splitextStem name)], fps := db.fps,
         pendingSongs := [], pendingFps := [] }, none) := by
    simp only [insert_song_and_fingerprints_fast, h3, h1, h2, commitDB, rollbackDB, h4, h5,
      if_neg h6]
    simp
  refine ⟨hmain, ?_⟩
  rw [hmain]
  exact h7

theorem C9_fast_bulk_failure_terminal_witness :
    (fingerprint_song constHash (.ok exSpec) ≠ []) ∧
    (insert_song_and_fingerprints_fast ⟨false, true, 1⟩ constHash emptyDB
        (.ok exSpec) ("track.mp3") ("SID1") =
      ({ songs := [(("SID1"), ("track"))], fps := [],
         pendingSongs := [], pendingFps := [] }, none) ∧
      ∀ row ∈ (insert_song_and_fingerprints_fast ⟨false, true, 1⟩ constHash emptyDB
          (.ok exSpec) ("track.mp3") ("SID1")).1.fps, row.1 ≠ ("SID1")) :=
  ⟨by decide, C9_fast_bulk_failure_terminal ⟨false, true, 1⟩ constHash emptyDB
    (.ok exSpec) ("track.mp3") ("SID1") rfl rfl (by decide) rfl rfl (by decide) (by decide)⟩

theorem chunksF_flatten {α : Type} (bs : ℕ) (hbs : 0 < bs) :
    ∀ (fuel : ℕ) (l : List α), l.length ≤ fuel → (chunksF fuel l bs).flatten = l := by
  intro fuel
  induction fuel with
  | zero =>
    intro l hl
    rw [Nat.le_zero, List.length_eq_zero] at hl
    subst hl
    rfl
  | succ fuel ih =>
    intro l hl
    match l with
    | [] => rfl
    | a :: l2 =>
      show (((a :: l2).take bs) :: chunksF fuel ((a :: l2).drop bs) bs).flatten = a :: l2
      rw [List.flatten_cons, ih ((a :: l2).drop bs) ?_, List.take_append_drop]
      rw [List.length_drop]
      omega

theorem chunksF_take_flatten {α : Type} (bs : ℕ) (hbs : 0 < bs) :
    ∀ (fuel k : ℕ) (l : List α), l.length ≤ fuel →
      ((chunksF fuel l bs).take k).flatten = l.take (bs * k) := by
  intro fuel
  induction fuel with
  | zero =>
    intro k l hl
    rw [Nat.le_zero, List.length_eq_zero] at hl
    subst hl
    show (List.take k ([] : List (List α))).flatten = List.take (bs * k) ([] : List α)
    rw [List.take_nil, List.take_nil]
    rfl
  | succ fuel ih =>
    intro k l hl
    match l with
    | [] => simp [chunksF]
    | a :: l2 =>
      match k with
      | 0 => simp
      | k + 1 =>
        show ((((a :: l2).take bs) :: chunksF fuel ((a :: l2).drop bs) bs).take (k + 1)).flatten
            = (a :: l2).take (bs * (k + 1))
        rw [List.take_succ_cons, List.flatten_cons]
        rw [ih k ((a :: l2).drop bs) ?_]
        · have : bs * (k + 1) = bs + bs * k := by ring
          rw [this, List.take_add]
        · rw [List.length_drop]
          omega

theorem chunksF_length_le {α : Type} (bs : ℕ) :
    ∀ (fuel : ℕ) (l : List α), ∀ b ∈ chunksF fuel l bs, b.length ≤ bs := by
  intro fuel
  induction fuel with
  | zero =>
    intro l b hb
    cases hb
  | succ fuel ih =>
    intro l b hb
    match l with
    | [] => cases hb
    | a :: l2 =>
      rcases List.mem_cons.1 hb with rfl | hb2
      · exact List.length_take_le _ _
      · exact ih _ _ hb2

theorem chunksF_length_lt {α : Type} (bs : ℕ) (hbs : 0 < bs) :
    ∀ (fuel k : ℕ) (l : List α), l.length ≤ fuel → bs * k < l.length →
      k < (chunksF fuel l bs).length := by
  intro fuel
  induction fuel with
  | zero =>
    intro k l hl hk
    omega
  | succ fuel ih =>
    intro k l hl hk
    match l with
    | [] => simp at hk
    | a :: l2 =>
      match k with
      | 0 => simp [chunksF]
      | k + 1 =>
        show k + 1 < (((a :: l2).take bs) :: chunksF fuel ((a :: l2).drop bs) bs).length
        rw [List.length_cons]
        have h1 : bs * k < ((a :: l2).drop bs).length := by
          rw [List.length_drop]
          have : bs * (k + 1) = bs * k + bs := by ring
          omega
        have h2 : ((a :: l2).drop bs).length ≤ fuel := by
          rw [List.length_drop]
          omega
        exact Nat.succ_lt_succ (ih k _ h2 h1)

theorem runBatches_none (pc : ℕ) :
    ∀ (chs : List (List (String × ℚ × ℤ))) (k : ℕ) (db : DBState),
      db.pendingSongs = [] → db.pendingFps = [] →
      runBatches none pc chs k db =
        ({ songs := db.songs, fps := db.fps ++ chs.flatten,
           pendingSongs := [], pendingFps := [] }, false) := by
  intro chs
  induction chs with
  | nil =>
    intro k db h1 h2
    show (db, false) = _
    obtain ⟨s, f, ps, pf⟩ := db
    simp only at h1 h2
    subst h1
    subst h2
    simp
  | cons b bs ih =>
    intro k db h1 h2
    show runBatches none pc (b :: bs) k db = _
    rw [runBatches, if_neg (by simp)]
    rw [ih (k + 1) _ rfl rfl]
    simp [commitDB, h1, h2]

theorem runBatches_fail (pc : ℕ) :
    ∀ (chs : List (List (String × ℚ × ℤ))) (k m : ℕ) (db : DBState),
      db.pendingSongs = [] → db.pendingFps = [] → m < chs.length →
      runBatches (some (k + m)) pc chs k db =
        ({ songs := db.songs, fps := db.fps ++ (chs.take m).flatten,
           pendingSongs := [], pendingFps := (chs.getD m []).take pc }, true) := by
  intro chs
  induction chs with
  | nil =>
    intro k m db h1 h2 hm
    simp at hm
  | cons b bs ih =>
    intro k m db h1 h2 hm
    match m with
    | 0 =>
      show runBatches (some (k + 0)) pc (b :: bs) k db = _
      rw [runBatches, if_pos (show some (k + 0) = some k from rfl)]
      simp [h1, h2]
    | m + 1 =>
      show runBatches (some (k + (m + 1))) pc (b :: bs) k db = _
      have harg : k + (m + 1) = (k + 1) + m := by omega
      rw [runBatches, if_neg (by simp), harg,
        ih (k + 1) m (commitDB { db with pendingFps := db.pendingFps ++ b }) rfl rfl
          (by simpa using hm)]
      simp [commitDB, h1, h2]

/-- C6: when the bulk-copy fast path of `insert_song_and_fingerprints`
fails, the fallback persists the same fingerprint tuples in consecutive
batches of (at most) 5000 records — batch k covers positions
[5000·k, 5000·(k+1)) — committing each batch immediately and
independently.  With no further failure the committed rows are exactly
the original tuples; if `executemany` fails at batch k, the outer
rollback discards only the pending rows, and the k batches already
committed — exactly the first 5000·k tuples — remain persisted. -/
theorem C6_fallback_batches (env : SlowEnv) (H : ℚ → ℚ → ℚ → ℤ) (db : DBState)
    (load : LoadResult) (file_path sid : String)
    (h1 : env.songInsertFails = false)
    (h2 : env.copyFails = true)
    (h3 : lookupSongId db (mp3StemOf file_path) = none)
    (h4 : db.pendingSongs = [])
    (h5 : db.pendingFps = [])
    (h6 : fingerprint_song H load ≠ []) :
    (∀ b ∈ chunksOf ((fingerprint_song H load).map (fun hf => (sid, hf.2, hf.1))) 5000,
        b.length ≤ 5000) ∧
    (chunksOf ((fingerprint_song H load).map (fun hf => (sid, hf.2, hf.1))) 5000).flatten =
      (fingerprint_song H load).map (fun hf => (sid, hf.2, hf.1)) ∧
    (env.batchFailAt = none →
      insert_song_and_fingerprints env H db load file_path sid 5000 =
        ({ songs := db.songs ++ [(sid, mp3StemOf file_path)],
           fps := db.fps ++ (fingerprint_song H load).map (fun hf => (sid, hf.2, hf.1)),
           pendingSongs := [], pendingFps := [] }, some sid)) ∧
    (∀ k, env.batchFailAt = some k →
      5000 * k < ((fingerprint_song H load).map (fun hf => (sid, hf.2, hf.1))).length →
      insert_song_and_fingerprints env H db load file_path sid 5000 =
        ({ songs := db.songs ++ [(sid, mp3StemOf file_path)],
           fps := db.fps ++
             ((fingerprint_song H load).map (fun hf => (sid, hf.2, hf.1))).take (5000 * k),
           pendingSongs := [], pendingFps := [] }, none)) := by
  refine ⟨chunksF_length_le 5000 _ _, chunksF_flatten 5000 (by norm_num) _ _ le_rfl, ?_, ?_⟩
  · intro hnone
    simp only [insert_song_and_fingerprints, h3, h1, h2, if_neg h6, hnone]
    rw [runBatches_none env.partialStaged _ 0 _ rfl rfl]
    simp only [chunksOf]
    rw [chunksF_flatten 5000 (by norm_num) _ _ (by simp)]
    simp [commitDB, h4, h5]
  · intro k hsome hlen
    simp only [insert_song_and_fingerprints, h3, h1, h2, if_neg h6, hsome]
    have hk : k < (chunksOf ((fingerprint_song H load).map (fun hf => (sid, hf.2, hf.1))) 5000).length := by
      exact chunksF_length_lt 5000 (by norm_num) _ k _ le_rfl hlen
    have := runBatches_fail env.partialStaged
      (chunksOf ((fingerprint_song H load).map (fun hf => (sid, hf.2, hf.1))) 5000) 0 k
      (commitDB { db with
        pendingSongs := db.pendingSongs ++ [(sid, mp3StemOf file_path)] }) rfl rfl hk
    rw [Nat.zero_add] at this
    rw [this]
    simp only [chunksOf]
    rw [chunksF_take_flatten 5000 (by norm_num) _ k _ (by simp)]
    simp [commitDB, rollbackDB, h4, h5]

theorem C6_fallback_batches_witness :
    (fingerprint_song constHash (.ok exSpec) ≠ []) ∧
    ((∀ b ∈ chunksOf ((fingerprint_song constHash (.ok exSpec)).map
          (fun hf => (("SID2"), hf.2, hf.1))) 5000, b.length ≤ 5000) ∧
      (chunksOf ((fingerprint_song constHash (.ok exSpec)).map
          (fun hf => (("SID2"), hf.2, hf.1))) 5000).flatten =
        (fingerprint_song constHash (.ok exSpec)).map (fun hf => (("SID2"), hf.2, hf.1)) ∧
      ((⟨false, true, some 0, 0⟩ : SlowEnv).batchFailAt = none →
        insert_song_and_fingerprints ⟨false, true, some 0, 0⟩ constHash emptyDB
            (.ok exSpec) ("track.mp3") ("SID2") 5000 =
          ({ songs := emptyDB.songs ++ [(("SID2"), mp3StemOf ("track.mp3"))],
             fps := emptyDB.fps ++ (fingerprint_song constHash (.ok exSpec)).map
               (fun hf => (("SID2"), hf.2, hf.1)),
             pendingSongs := [], pendingFps := [] }, some ("SID2"))) ∧
      (∀ k, (⟨false, true, some 0, 0⟩ : SlowEnv).batchFailAt = some k →
        5000 * k < ((fingerprint_song constHash (.ok exSpec)).map
          (fun hf => (("SID2"), hf.2, hf.1))).length →
        insert_song_and_fingerprints ⟨false, true, some 0, 0⟩ constHash emptyDB
            (.ok exSpec) ("track.mp3") ("SID2") 5000 =
          ({ songs := emptyDB.songs ++ [(("SID2"), mp3StemOf ("track.mp3"))],
             fps := emptyDB.fps ++ ((fingerprint_song constHash (.ok exSpec)).map
               (fun hf => (("SID2"), hf.2, hf.1))).take (5000 * k),
             pendingSongs := [], pendingFps := [] }, none))) :=
  ⟨by decide, C6_fallback_batches ⟨false, true, some 0, 0⟩ constHash emptyDB
    (.ok exSpec) ("track.mp3") ("SID2") rfl rfl (by decide) rfl rfl (by decide)⟩

/-- C3 (code bug, evaluated): the upload handler cannot deliver the
success-then-skipped contract.  (1) The call at `main.py:83` passes two
positional arguments to `insert_song_and_fingerprints_fast`, which has
three parameters without defaults, so every request raises `TypeError`
and is answered with HTTP 500 — the first ingestion never reports
success.  (2) Even with the call repaired, the skip detection at
`main.py:87` sniffs the songId string for the substring
`"already exists"`; a songId produced by `generate_song_id` (here the
concrete `SONG_20261012_ABCD1234`) never contains that substring, so a
second ingestion of the same filename would be labelled `success`, never
`skipped`. -/
theorem C3_upload_handler_bug :
    mainUploadCallRaisesTypeError = true ∧
    (∀ pipelineResult : Option String, create_upload_file pipelineResult = .httpError 500) ∧
    pyStrContains alreadyExistsLit (generate_song_id ("20261012") ("ABCD1234")) = false ∧
    uploadOutcomeOf (some (generate_song_id ("20261012") ("ABCD1234"))) =
      .success ("SONG_20261012_ABCD1234") := by
  refine ⟨by decide, ?_, by decide, by decide⟩
  intro r
  rfl

/-- C10: `tasks.py` never imports `shutil`, yet `download_file_from_url`
evaluates `shutil.copyfileobj`, so (with the HTTP fetch itself
succeeding) every call raises `NameError` after `tempfile.mkstemp` has
already created the temporary file; `process_fingerprints` therefore
fails before any fingerprinting begins, and its `finally` block does not
remove the just-created temporary file because `temp_local_path` is
still `None` when the error propagates.  Whatever the HTTP outcome, no
job ever reaches a successful result. -/
theorem C10_missing_shutil :
    (shutilName ∉ tasksModuleNames) ∧
    (∀ (fs : FsState) (path : String),
      download_file_from_url true path fs =
        (⟨fs.tempFiles ++ [path]⟩, .error (PyErr.nameError shutilName))) ∧
    (∀ (fs : FsState) (path : String) (dbOk : Bool) (insertResult : Option String),
      process_fingerprints true dbOk insertResult path fs =
        (⟨fs.tempFiles ++ [path]⟩, .error (PyErr.nameError shutilName))) ∧
    (∀ (httpOk dbOk : Bool) (insertResult : Option String) (path sid : String)
      (fs : FsState), (process_fingerprints httpOk dbOk insertResult path fs).2 ≠ .ok sid) := by
  refine ⟨by decide, ?_, ?_, ?_⟩
  · intro fs path
    rfl
  · intro fs path dbOk insertResult
    rfl
  · intro httpOk dbOk insertResult path sid fs
    match httpOk with
    | true => simp [process_fingerprints, download_file_from_url, shutilName, tasksModuleNames]
    | false => simp [process_fingerprints, download_file_from_url]
